import Mathlib

/-!
Verification of the watch-status / engagement-aggregation subsystem of the
lacrosse coaching-content platform.

The relational store (shared/schema.ts) and the storage layer
(server/storage.ts, class DatabaseStorage) are shallowly embedded: each
table is a list of rows, each storage method a pure function on a `DB`
state. The HTTP handlers of the routes file are embedded as functions
returning a status code and the successor state. SQL `ORDER BY` with a
single key is embedded as a stable sort on the stored row order
(`List.insertionSort`), and `count(distinct ...)` as `dedup.length`.
-/

namespace CoachPlatform

/-- Row of the `users` table (shared/schema.ts). -/
structure User where
  id : Nat
  username : String
  password : String
  isCoach : Bool
  deriving DecidableEq, Repr

/-- Row of the `content_links` table (shared/schema.ts). -/
structure ContentLink where
  id : Nat
  url : String
  title : String
  category : String
  coachId : Nat
  platform : String
  thumbnailUrl : Option String
  description : String
  views : Nat
  deriving DecidableEq, Repr

/-- Row of the `comments` table (shared/schema.ts); `createdAt` is an
abstract timestamp. -/
structure Comment where
  id : Nat
  content : String
  userId : Nat
  contentId : Nat
  createdAt : Nat
  deriving DecidableEq, Repr

/-- Row of the `watch_status` table (shared/schema.ts), carrying the unique
index on (userId, contentId). -/
structure WatchStatus where
  id : Nat
  userId : Nat
  contentId : Nat
  watched : Bool
  deriving DecidableEq, Repr

/-- Row of the `comment_likes` table (shared/schema.ts), carrying the unique
index on (userId, commentId). -/
structure CommentLike where
  id : Nat
  userId : Nat
  commentId : Nat
  createdAt : Nat
  deriving DecidableEq, Repr

/-- The relational store: one list of rows per table, in insertion order,
plus the next value of the shared serial id sequence. -/
structure DB where
  users : List User
  contentLinks : List ContentLink
  comments : List Comment
  watchStatus : List WatchStatus
  commentLikes : List CommentLike
  nextId : Nat
  deriving DecidableEq, Repr

/-- Key predicate of the `watch_status_user_content_idx` unique index. -/
def wsKey (userId contentId : Nat) (r : WatchStatus) : Bool :=
  r.userId == userId && r.contentId == contentId

/-- Key predicate of the `comment_likes_user_comment_idx` unique index. -/
def clKey (userId commentId : Nat) (l : CommentLike) : Bool :=
  l.userId == userId && l.commentId == commentId

/-- The schema invariant enforced by the unique index on
(userId, contentId): at most one watch-status row per pair. -/
def wsUnique (db : DB) : Prop :=
  ∀ u c, db.watchStatus.countP (wsKey u c) ≤ 1

/-- DatabaseStorage.getContent: `select ... where eq(contentLinks.id, id)`,
destructured to the first row. -/
def getContent (db : DB) (id : Nat) : Option ContentLink :=
  db.contentLinks.find? (fun c => c.id == id)

/-- DatabaseStorage.deleteContent: `delete from contentLinks where id = id`. -/
def deleteContent (db : DB) (id : Nat) : DB :=
  { db with contentLinks := db.contentLinks.filter (fun c => !(c.id == id)) }

/-- DatabaseStorage.createContent: insert with `views: 0` and the caller's
coachId; the serial column provides the id. -/
def createContent (db : DB) (url title category platform description : String)
    (thumbnailUrl : Option String) (coachId : Nat) : DB :=
  { db with
    contentLinks := db.contentLinks ++
      [{ id := db.nextId, url := url, title := title, category := category,
         coachId := coachId, platform := platform, thumbnailUrl := thumbnailUrl,
         description := description, views := 0 }]
    nextId := db.nextId + 1 }

/-- DatabaseStorage.createComment: insert; `createdAt` comes from the
`defaultNow()` column, passed here as an abstract timestamp. -/
def createComment (db : DB) (content : String) (userId contentId createdAt : Nat) : DB :=
  { db with
    comments := db.comments ++
      [{ id := db.nextId, content := content, userId := userId,
         contentId := contentId, createdAt := createdAt }]
    nextId := db.nextId + 1 }

/-- DatabaseStorage.getCommentById: `select from comments where id = id`,
first row. -/
def getCommentById (db : DB) (id : Nat) : Option Comment :=
  db.comments.find? (fun c => c.id == id)

/-- DatabaseStorage.updateWatchStatus: `insert ... onConflictDoUpdate` on the
(userId, contentId) unique index, setting `watched`. On conflict the
existing row is updated in place; otherwise a fresh row is inserted. -/
def updateWatchStatus (db : DB) (userId contentId : Nat) (watched : Bool) : DB :=
  if db.watchStatus.any (wsKey userId contentId) then
    { db with
      watchStatus := db.watchStatus.map (fun r =>
        if wsKey userId contentId r then { r with watched := watched } else r) }
  else
    { db with
      watchStatus := db.watchStatus ++
        [{ id := db.nextId, userId := userId, contentId := contentId, watched := watched }]
      nextId := db.nextId + 1 }

/-- DatabaseStorage.getWatchStatus: `select from watchStatus where
userId = ? AND contentId = ?`, first row. -/
def getWatchStatus (db : DB) (userId contentId : Nat) : Option WatchStatus :=
  db.watchStatus.find? (wsKey userId contentId)

/-- DatabaseStorage.incrementViews: `update contentLinks set views = views + 1
where id = contentId`. -/
def incrementViews (db : DB) (contentId : Nat) : DB :=
  { db with
    contentLinks := db.contentLinks.map (fun c =>
      if c.id == contentId then { c with views := c.views + 1 } else c) }

/-- DatabaseStorage.likeComment: `insert ... onConflictDoNothing` on the
(userId, commentId) unique index. -/
def likeComment (db : DB) (userId commentId : Nat) : DB :=
  if db.commentLikes.any (clKey userId commentId) then db
  else
    { db with
      commentLikes := db.commentLikes ++
        [{ id := db.nextId, userId := userId, commentId := commentId, createdAt := 0 }]
      nextId := db.nextId + 1 }

/-- DatabaseStorage.unlikeComment: `delete from commentLikes where
userId = ? and commentId = ?`. -/
def unlikeComment (db : DB) (userId commentId : Nat) : DB :=
  { db with commentLikes := db.commentLikes.filter (fun l => !(clKey userId commentId l)) }

/-- DatabaseStorage.hasUserLikedComment: existence of a like row for the
pair (`!!like`). -/
def hasUserLikedComment (db : DB) (userId commentId : Nat) : Bool :=
  db.commentLikes.any (clKey userId commentId)

/-- Like count of one comment, as computed by the grouped subquery
`count(*) ... group by commentId` joined with `COALESCE(count, 0)`. -/
def likeCountOf (db : DB) (commentId : Nat) : Nat :=
  db.commentLikes.countP (fun l => l.commentId == commentId)

/-- One row of the comment listing: the comment columns joined with the
author's username and the coalesced like count. -/
structure CommentView where
  id : Nat
  content : String
  userId : Nat
  contentId : Nat
  createdAt : Nat
  username : String
  likeCount : Nat
  deriving DecidableEq, Repr

/-- The sortBy parameter of the comment listing. -/
inductive SortOrder where
  | newest
  | oldest
  | likes
  deriving DecidableEq, Repr

/-- The unsorted base query of DatabaseStorage.getCommentsByContent: comments
of the content, inner-joined with users on userId, left-joined with the
like-count subquery. -/
def commentRows (db : DB) (contentId : Nat) : List CommentView :=
  (db.comments.filter (fun c => c.contentId == contentId)).filterMap (fun c =>
    (db.users.find? (fun u => u.id == c.userId)).map (fun u =>
      { id := c.id, content := c.content, userId := c.userId,
        contentId := c.contentId, createdAt := c.createdAt,
        username := u.username, likeCount := likeCountOf db c.id }))

/-- DatabaseStorage.getCommentsByContent: the base query ordered by the
selected single key — `desc(createdAt)`, `asc(createdAt)` or
`desc(COALESCE(likes_count.count, 0))`; no secondary key is applied in any
branch. -/
def getCommentsByContent (db : DB) (contentId : Nat) (sortBy : SortOrder) :
    List CommentView :=
  match sortBy with
  | SortOrder.newest =>
      (commentRows db contentId).insertionSort (fun a b => b.createdAt ≤ a.createdAt)
  | SortOrder.oldest =>
      (commentRows db contentId).insertionSort (fun a b => a.createdAt ≤ b.createdAt)
  | SortOrder.likes =>
      (commentRows db contentId).insertionSort (fun a b => b.likeCount ≤ a.likeCount)

/-- POST /api/content/:id/view — 404 on missing content; for non-coach users
increment the view counter and upsert watched = true; coaches change
nothing. Returns (status, state). -/
def viewEndpoint (db : DB) (user : User) (contentId : Nat) : Nat × DB :=
  match getContent db contentId with
  | none => (404, db)
  | some _ =>
    if user.isCoach then (200, db)
    else (200, updateWatchStatus (incrementViews db contentId) user.id contentId true)

/-- POST /api/comments/:commentId/like — 404 on missing comment, 400 on the
author liking their own comment, otherwise insert-if-absent. -/
def likeEndpoint (db : DB) (user : User) (commentId : Nat) : Nat × DB :=
  match getCommentById db commentId with
  | none => (404, db)
  | some comment =>
    if comment.userId == user.id then (400, db)
    else (200, likeComment db user.id commentId)

/-- POST /api/comments/:commentId/unlike — unconditionally delete-if-present
and answer 200; no existence check on the comment. -/
def unlikeEndpoint (db : DB) (user : User) (commentId : Nat) : Nat × DB :=
  (200, unlikeComment db user.id commentId)

/-- GET /api/content/:contentId/watch — `status ? status.watched : false`. -/
def watchGetEndpoint (db : DB) (user : User) (contentId : Nat) : Bool :=
  match getWatchStatus db user.id contentId with
  | none => false
  | some s => s.watched

/-- POST /api/content/:contentId/watch — upsert the caller's watched flag. -/
def watchPostEndpoint (db : DB) (user : User) (contentId : Nat) (w : Bool) : Nat × DB :=
  (200, updateWatchStatus db user.id contentId w)

/-- DELETE /api/content/:id — 403 for non-coaches and non-owners, 404 on
missing content, otherwise delete the content row. -/
def deleteContentEndpoint (db : DB) (user : User) (contentId : Nat) : Nat × DB :=
  if !user.isCoach then (403, db)
  else
    match getContent db contentId with
    | none => (404, db)
    | some content =>
      if !(content.coachId == user.id) then (403, db)
      else (200, deleteContent db contentId)

/-- The uniqueViewers analytics query (GET /api/analytics):
`count(distinct case when watch_status.watched then watch_status.user_id end)`
over the watch-status rows of one content. -/
def uniqueViewers (db : DB) (contentId : Nat) : Nat :=
  (((db.watchStatus.filter (fun r => r.contentId == contentId && r.watched)).map
      (fun r => r.userId)).dedup).length

/-- Stated from the spec's words, for comparison with `uniqueViewers`: the
number (finite-set cardinality) of distinct users having a watch-status row
with watched = true for the content. -/
def specUniqueViewers (db : DB) (contentId : Nat) : Nat :=
  (((db.watchStatus.filter (fun r => r.contentId == contentId && r.watched)).map
      (fun r => r.userId)).toFinset).card

/-! ### Helper lemmas about the watch-status upsert -/

lemma wsKey_updateFun (u c u' c' : Nat) (w : Bool) (r : WatchStatus) :
    wsKey u' c' (if wsKey u c r then { r with watched := w } else r) = wsKey u' c' r := by
  by_cases h : wsKey u c r = true
  · rw [if_pos h]
    simp [wsKey]
  · rw [if_neg h]

lemma wsKey_comp_updateFun (u c u' c' : Nat) (w : Bool) :
    (wsKey u' c' ∘ fun r => if wsKey u c r then { r with watched := w } else r) = wsKey u' c' :=
  funext (fun r => wsKey_updateFun u c u' c' w r)

lemma countP_zero_of_any_false {l : List WatchStatus} {p : WatchStatus → Bool}
    (hany : ¬l.any p = true) : l.countP p = 0 := by
  rw [List.countP_eq_zero]
  intro a ha hk
  exact hany (List.any_eq_true.mpr ⟨a, ha, hk⟩)

lemma updateWatchStatus_countP_key (db : DB) (u c : Nat) (w : Bool)
    (h : db.watchStatus.countP (wsKey u c) ≤ 1) :
    ((updateWatchStatus db u c w).watchStatus).countP (wsKey u c) = 1 := by
  unfold updateWatchStatus
  by_cases hany : db.watchStatus.any (wsKey u c) = true
  · rw [if_pos hany]
    dsimp only
    rw [List.countP_map, wsKey_comp_updateFun]
    have hpos : 0 < db.watchStatus.countP (wsKey u c) := by
      rw [List.countP_pos_iff]
      exact List.any_eq_true.mp hany
    omega
  · rw [if_neg hany]
    dsimp only
    rw [List.countP_append, countP_zero_of_any_false hany]
    have hnew : wsKey u c { id := db.nextId, userId := u, contentId := c, watched := w } = true := by
      simp [wsKey]
    simp [List.countP_singleton, hnew]

lemma updateWatchStatus_watched (db : DB) (u c : Nat) (w : Bool) :
    ∀ r ∈ (updateWatchStatus db u c w).watchStatus, wsKey u c r → r.watched = w := by
  intro r hr hkey
  unfold updateWatchStatus at hr
  by_cases hany : db.watchStatus.any (wsKey u c) = true
  · rw [if_pos hany] at hr
    dsimp only at hr
    obtain ⟨s, hs, rfl⟩ := List.mem_map.mp hr
    by_cases hk : wsKey u c s = true
    · rw [if_pos hk]
    · rw [if_neg hk] at hkey ⊢
      exact absurd hkey hk
  · rw [if_neg hany] at hr
    dsimp only at hr
    rcases List.mem_append.mp hr with h1 | h2
    · exact absurd (List.any_eq_true.mpr ⟨r, h1, hkey⟩) hany
    · rw [List.mem_singleton] at h2
      subst h2
      rfl

lemma updateWatchStatus_wsUnique (db : DB) (u c : Nat) (w : Bool) (h : wsUnique db) :
    wsUnique (updateWatchStatus db u c w) := by
  intro u' c'
  unfold updateWatchStatus
  by_cases hany : db.watchStatus.any (wsKey u c) = true
  · rw [if_pos hany]
    dsimp only
    rw [List.countP_map, wsKey_comp_updateFun]
    exact h u' c'
  · rw [if_neg hany]
    dsimp only
    rw [List.countP_append]
    by_cases hk : wsKey u' c' { id := db.nextId, userId := u, contentId := c, watched := w } = true
    · have hek : u = u' ∧ c = c' := by
        simpa [wsKey] using hk
      obtain ⟨rfl, rfl⟩ := hek
      rw [countP_zero_of_any_false hany]
      simp [List.countP_singleton, hk]
    · rw [List.countP_singleton, if_neg hk]
      simpa using h u' c'

/-! ### Helper lemmas about comment likes -/

lemma likeComment_of_liked (db : DB) (u c : Nat)
    (h : hasUserLikedComment db u c = true) : likeComment db u c = db := by
  have hany : db.commentLikes.any (clKey u c) = true := h
  unfold likeComment
  rw [if_pos hany]

lemma unlikeComment_of_not_liked (db : DB) (u c : Nat)
    (h : hasUserLikedComment db u c = false) : unlikeComment db u c = db := by
  have hfe : db.commentLikes.filter (fun l => !(clKey u c l)) = db.commentLikes := by
    rw [List.filter_eq_self]
    intro a ha
    have hna := List.any_eq_false.mp h a ha
    simp [hna]
  unfold unlikeComment
  rw [hfe]

/-! ### Claim theorems (watch status, likes, frame conditions) -/

/-- C1: after updateWatchStatus(userId, contentId, w) on a store satisfying
the (userId, contentId) uniqueness invariant, exactly one watch-status row
exists for the pair and its watched field equals w; calling it again with a
different boolean leaves exactly one row holding the latest value. -/
theorem updateWatchStatus_exactly_one_row (db : DB) (u c : Nat) (w w2 : Bool)
    (h : wsUnique db) :
    (((updateWatchStatus db u c w).watchStatus).countP (wsKey u c) = 1 ∧
      ∀ r ∈ (updateWatchStatus db u c w).watchStatus, wsKey u c r → r.watched = w) ∧
    (((updateWatchStatus (updateWatchStatus db u c w) u c w2).watchStatus).countP (wsKey u c) = 1 ∧
      ∀ r ∈ (updateWatchStatus (updateWatchStatus db u c w) u c w2).watchStatus,
        wsKey u c r → r.watched = w2) :=
  ⟨⟨updateWatchStatus_countP_key db u c w (h u c),
    updateWatchStatus_watched db u c w⟩,
   ⟨updateWatchStatus_countP_key _ u c w2 (updateWatchStatus_wsUnique db u c w h u c),
    updateWatchStatus_watched _ u c w2⟩⟩

/-- Empty store used as a concrete witness input. -/
def emptyDB : DB :=
  { users := [], contentLinks := [], comments := [], watchStatus := [],
    commentLikes := [], nextId := 1 }

/-- Witness for C1 at a concrete store: toggling twice leaves one row with
the latest value. -/
theorem updateWatchStatus_exactly_one_row_witness :
    wsUnique emptyDB ∧
    ((updateWatchStatus (updateWatchStatus emptyDB 1 2 true) 1 2 false).watchStatus).countP
      (wsKey 1 2) = 1 := by
  have hu : wsUnique emptyDB := by
    intro u c
    simp [emptyDB]
  exact ⟨hu, ((updateWatchStatus_exactly_one_row emptyDB 1 2 true false hu).2).1⟩

/-- C3: likeComment and unlikeComment are idempotent; a like on an existing
like row and an unlike with no like row both leave the store unchanged. -/
theorem like_unlike_idempotent (db : DB) (u c : Nat) :
    likeComment (likeComment db u c) u c = likeComment db u c ∧
    unlikeComment (unlikeComment db u c) u c = unlikeComment db u c ∧
    (hasUserLikedComment db u c = true → likeComment db u c = db) ∧
    (hasUserLikedComment db u c = false → unlikeComment db u c = db) := by
  refine ⟨?_, ?_, likeComment_of_liked db u c, unlikeComment_of_not_liked db u c⟩
  · by_cases h : hasUserLikedComment db u c = true
    · rw [likeComment_of_liked db u c h]
      exact likeComment_of_liked db u c h
    · have hanyn : ¬db.commentLikes.any (clKey u c) = true := h
      have hlk : hasUserLikedComment (likeComment db u c) u c = true := by
        unfold likeComment
        rw [if_neg hanyn]
        unfold hasUserLikedComment
        dsimp only
        apply List.any_eq_true.mpr
        refine ⟨{ id := db.nextId, userId := u, commentId := c, createdAt := 0 }, ?_, ?_⟩
        · simp
        · simp [clKey]
      exact likeComment_of_liked _ u c hlk
  · have hnl : hasUserLikedComment (unlikeComment db u c) u c = false := by
      unfold unlikeComment hasUserLikedComment
      dsimp only
      apply List.any_eq_false.mpr
      intro x hx
      have hxm := (List.mem_filter.mp hx).2
      simp at hxm
      simp [hxm]
    exact unlikeComment_of_not_liked _ u c hnl

/-- Store holding one like row, used as a concrete witness input. -/
def oneLikeDB : DB :=
  { users := [], contentLinks := [], comments := [], watchStatus := [],
    commentLikes := [{ id := 1, userId := 2, commentId := 3, createdAt := 0 }], nextId := 2 }

/-- Witness for C3 at a concrete store: a duplicate like and a spurious
unlike are both no-ops. -/
theorem like_unlike_idempotent_witness :
    (hasUserLikedComment oneLikeDB 2 3 = true ∧ likeComment oneLikeDB 2 3 = oneLikeDB) ∧
    (hasUserLikedComment oneLikeDB 9 3 = false ∧ unlikeComment oneLikeDB 9 3 = oneLikeDB) :=
  ⟨⟨by decide, (like_unlike_idempotent oneLikeDB 2 3).2.2.1 (by decide)⟩,
   ⟨by decide, (like_unlike_idempotent oneLikeDB 9 3).2.2.2 (by decide)⟩⟩

/-- C6: a like request by the author of the comment is rejected with a 400
error before any like row is written: the store, and with it the set of
CommentLike rows, is unchanged. -/
theorem like_own_comment_rejected (db : DB) (user : User) (cid : Nat) (cmt : Comment)
    (hc : getCommentById db cid = some cmt) (hown : cmt.userId = user.id) :
    likeEndpoint db user cid = (400, db) := by
  unfold likeEndpoint
  rw [hc]
  have hb : (cmt.userId == user.id) = true := by simp [hown]
  dsimp only
  rw [if_pos hb]

/-- Store with one user's comment, used as a concrete witness input. -/
def ownCommentDB : DB :=
  { users := [{ id := 4, username := "ann", password := "x", isCoach := false }],
    contentLinks := [], comments := [{ id := 7, content := "hi", userId := 4, contentId := 1, createdAt := 0 }],
    watchStatus := [], commentLikes := [], nextId := 8 }

/-- Witness for C6: the author of comment 7 cannot like it; the call answers
400 and the store is untouched. -/
theorem like_own_comment_rejected_witness :
    likeEndpoint ownCommentDB { id := 4, username := "ann", password := "x", isCoach := false } 7
      = (400, ownCommentDB) :=
  like_own_comment_rejected ownCommentDB
    { id := 4, username := "ann", password := "x", isCoach := false } 7
    { id := 7, content := "hi", userId := 4, contentId := 1, createdAt := 0 }
    (by decide) rfl

/-- C8: when no watch-status row exists for (user, content), getWatchStatus
returns no record and the watch read endpoint reports watched = false. -/
theorem watch_absent_reads_false (db : DB) (user : User) (cid : Nat)
    (h : ∀ r ∈ db.watchStatus, ¬(r.userId = user.id ∧ r.contentId = cid)) :
    getWatchStatus db user.id cid = none ∧ watchGetEndpoint db user cid = false := by
  have hn : getWatchStatus db user.id cid = none := by
    unfold getWatchStatus
    rw [List.find?_eq_none]
    intro r hr
    simp only [wsKey, Bool.and_eq_true, beq_iff_eq]
    exact h r hr
  refine ⟨hn, ?_⟩
  unfold watchGetEndpoint
  rw [hn]

/-- Store with one unrelated watch-status row, used as a concrete witness
input. -/
def otherWatchDB : DB :=
  { users := [], contentLinks := [], comments := [],
    watchStatus := [{ id := 1, userId := 5, contentId := 6, watched := true }],
    commentLikes := [], nextId := 2 }

/-- Witness for C8: user 1 has no row for content 6, so the read reports
watched = false. -/
theorem watch_absent_reads_false_witness :
    getWatchStatus otherWatchDB 1 6 = none ∧
    watchGetEndpoint otherWatchDB { id := 1, username := "b", password := "y", isCoach := false } 6
      = false :=
  watch_absent_reads_false otherWatchDB
    { id := 1, username := "b", password := "y", isCoach := false } 6 (by decide)

/-- C9: deleteContent removes only the matching ContentLink row: comments,
comment likes, watch-status rows and users are untouched, other content rows
survive, and the DELETE endpoint never touches the dependent tables either —
no cascading deletion. -/
theorem deleteContent_frame (db : DB) (id : Nat) :
    (deleteContent db id).comments = db.comments ∧
    (deleteContent db id).commentLikes = db.commentLikes ∧
    (deleteContent db id).watchStatus = db.watchStatus ∧
    (deleteContent db id).users = db.users ∧
    (deleteContent db id).contentLinks = db.contentLinks.filter (fun c => !(c.id == id)) ∧
    (∀ c ∈ db.contentLinks, c.id ≠ id → c ∈ (deleteContent db id).contentLinks) ∧
    (∀ u : User, (deleteContentEndpoint db u id).2.comments = db.comments ∧
      (deleteContentEndpoint db u id).2.commentLikes = db.commentLikes ∧
      (deleteContentEndpoint db u id).2.watchStatus = db.watchStatus) := by
  refine ⟨rfl, rfl, rfl, rfl, rfl, ?_, ?_⟩
  · intro c hc hne
    unfold deleteContent
    dsimp only
    rw [List.mem_filter]
    exact ⟨hc, by simp [hne]⟩
  · intro u
    unfold deleteContentEndpoint
    by_cases hcoach : (!u.isCoach) = true
    · rw [if_pos hcoach]
      exact ⟨rfl, rfl, rfl⟩
    · rw [if_neg hcoach]
      cases hg : getContent db id with
      | none => exact ⟨rfl, rfl, rfl⟩
      | some content =>
        dsimp only
        by_cases hown : (!(content.coachId == u.id)) = true
        · rw [if_pos hown]
          exact ⟨rfl, rfl, rfl⟩
        · rw [if_neg hown]
          exact ⟨rfl, rfl, rfl⟩

/-- Store with a coach's content, a comment and a watch row, used as a
concrete witness input for the frame condition. -/
def richDB : DB :=
  { users := [{ id := 1, username := "coach", password := "z", isCoach := true }],
    contentLinks :=
      [{ id := 3, url := "u", title := "t", category := "k", coachId := 1,
         platform := "YouTube", thumbnailUrl := none, description := "d", views := 2 },
       { id := 5, url := "v", title := "s", category := "k", coachId := 1,
         platform := "YouTube", thumbnailUrl := none, description := "e", views := 0 }],
    comments := [{ id := 4, content := "c", userId := 2, contentId := 5, createdAt := 0 }],
    watchStatus := [{ id := 6, userId := 2, contentId := 5, watched := true }],
    commentLikes := [], nextId := 7 }

/-- Witness for C9: deleting content 5 keeps the comment, the watch row and
the unrelated content row 3. -/
theorem deleteContent_frame_witness :
    (deleteContent richDB 5).comments = richDB.comments ∧
    (deleteContent richDB 5).watchStatus = richDB.watchStatus ∧
    { id := 3, url := "u", title := "t", category := "k", coachId := 1,
      platform := "YouTube", thumbnailUrl := none, description := "d",
      views := 2 : ContentLink } ∈ (deleteContent richDB 5).contentLinks :=
  ⟨(deleteContent_frame richDB 5).1,
   (deleteContent_frame richDB 5).2.2.1,
   (deleteContent_frame richDB 5).2.2.2.2.2.1
     { id := 3, url := "u", title := "t", category := "k", coachId := 1,
       platform := "YouTube", thumbnailUrl := none, description := "d", views := 2 }
     (by decide) (by decide)⟩

/-- C10: the unlike endpoint performs no existence check: it answers 200 for
every comment id, leaves the store unchanged when no like row exists, and for
a missing comment the like endpoint answers 404 while unlike still succeeds. -/
theorem unlike_endpoint_no_check (db : DB) (user : User) (cid : Nat)
    (hno : hasUserLikedComment db user.id cid = false) :
    (unlikeEndpoint db user cid).1 = 200 ∧
    (unlikeEndpoint db user cid).2 = db ∧
    (getCommentById db cid = none → likeEndpoint db user cid = (404, db)) := by
  refine ⟨rfl, ?_, ?_⟩
  · exact unlikeComment_of_not_liked db user.id cid hno
  · intro hmiss
    unfold likeEndpoint
    rw [hmiss]

/-- Witness for C10: unliking the nonexistent comment 42 answers 200 and
changes nothing while liking it answers 404. -/
theorem unlike_endpoint_no_check_witness :
    (unlikeEndpoint emptyDB { id := 1, username := "b", password := "y", isCoach := false } 42).1
      = 200 ∧
    (unlikeEndpoint emptyDB { id := 1, username := "b", password := "y", isCoach := false } 42).2
      = emptyDB ∧
    likeEndpoint emptyDB { id := 1, username := "b", password := "y", isCoach := false } 42
      = (404, emptyDB) := by
  have hmain := unlike_endpoint_no_check emptyDB
    { id := 1, username := "b", password := "y", isCoach := false } 42 (by decide)
  exact ⟨hmain.1, hmain.2.1, hmain.2.2 (by decide)⟩

/-! ### C2: the likes sort and its missing tie-break -/

/-- The ordering the spec asserts for sortBy = likes: like count
non-increasing and, among equal counts, creation time newest first. -/
def likesSpecOrder (a b : CommentView) : Prop :=
  b.likeCount < a.likeCount ∨ (a.likeCount = b.likeCount ∧ b.createdAt ≤ a.createdAt)

/-- Store with two comments of equal (zero) like count on content 5: comment
10 is older (createdAt 1), comment 11 newer (createdAt 2), stored in
insertion order. -/
def twoCommentsDB : DB :=
  { users := [{ id := 1, username := "u", password := "p", isCoach := false }],
    contentLinks :=
      [{ id := 5, url := "url", title := "t", category := "k", coachId := 2,
         platform := "YouTube", thumbnailUrl := none, description := "d", views := 0 }],
    comments :=
      [{ id := 10, content := "older", userId := 1, contentId := 5, createdAt := 1 },
       { id := 11, content := "newer", userId := 1, contentId := 5, createdAt := 2 }],
    watchStatus := [], commentLikes := [], nextId := 12 }

/-- Counterexample to C2: with two zero-like comments the likes sort keeps
the stored order, so the older comment (createdAt 1) precedes the newer one
(createdAt 2) — the listing is not ordered newest-first among equal like
counts, because the query has no secondary sort key. -/
theorem getCommentsByContent_likes_tiebreak_cex :
    (getCommentsByContent twoCommentsDB 5 SortOrder.likes).map
        (fun v => (v.likeCount, v.createdAt)) = [(0, 1), (0, 2)] ∧
    ¬ (getCommentsByContent twoCommentsDB 5 SortOrder.likes).Pairwise likesSpecOrder := by
  have hlist : getCommentsByContent twoCommentsDB 5 SortOrder.likes =
      [{ id := 10, content := "older", userId := 1, contentId := 5, createdAt := 1,
         username := "u", likeCount := 0 },
       { id := 11, content := "newer", userId := 1, contentId := 5, createdAt := 2,
         username := "u", likeCount := 0 }] := by decide
  constructor
  · rw [hlist]
    rfl
  · intro hpw
    rw [hlist] at hpw
    have hrel := (List.pairwise_cons.mp hpw).1 _ (List.mem_singleton_self _)
    simp [likesSpecOrder] at hrel

/-- C2 amended: the likes listing is ordered by like count non-increasing
and is a permutation of the base (joined) rows of the content; no tie-break
among equal like counts is applied by the code. -/
theorem getCommentsByContent_likes_sorted (db : DB) (cid : Nat) :
    (getCommentsByContent db cid SortOrder.likes).Pairwise
      (fun a b => b.likeCount ≤ a.likeCount) ∧
    (getCommentsByContent db cid SortOrder.likes).Perm (commentRows db cid) := by
  unfold getCommentsByContent
  constructor
  · haveI ht : IsTotal CommentView (fun a b => b.likeCount ≤ a.likeCount) :=
      ⟨fun a b => Nat.le_total b.likeCount a.likeCount⟩
    haveI htr : IsTrans CommentView (fun a b => b.likeCount ≤ a.likeCount) :=
      ⟨fun a b c hab hbc => le_trans hbc hab⟩
    exact List.sorted_insertionSort _ _
  · exact List.perm_insertionSort _ _

/-! ### C4: unique viewers are deduplicated per user -/

lemma ws_set_watched_self {w : Bool} (r : WatchStatus) (h : r.watched = w) :
    ({ r with watched := w } : WatchStatus) = r := by
  cases r
  simp_all

lemma updateWatchStatus_contentLinks (db : DB) (u c : Nat) (w : Bool) :
    (updateWatchStatus db u c w).contentLinks = db.contentLinks := by
  unfold updateWatchStatus
  by_cases h : db.watchStatus.any (wsKey u c) = true
  · rw [if_pos h]
  · rw [if_neg h]

lemma getContent_congr (db db' : DB) (h : db'.contentLinks = db.contentLinks) (id : Nat) :
    getContent db' id = getContent db id := by
  unfold getContent
  rw [h]

lemma uniqueViewers_congr (db db' : DB) (h : db'.watchStatus = db.watchStatus) (c : Nat) :
    uniqueViewers db' c = uniqueViewers db c := by
  unfold uniqueViewers
  rw [h]

lemma getContent_incrementViews (db : DB) (cid id : Nat) :
    getContent (incrementViews db cid) id
      = (getContent db id).map
          (fun r => if r.id == cid then { r with views := r.views + 1 } else r) := by
  unfold getContent incrementViews
  dsimp only
  rw [List.find?_map]
  have hcomp : ((fun r : ContentLink => r.id == id) ∘
      fun r => if r.id == cid then { r with views := r.views + 1 } else r)
      = fun r : ContentLink => r.id == id := by
    funext r
    by_cases h : (r.id == cid) = true
    · simp only [Function.comp_apply, if_pos h]
    · simp only [Function.comp_apply, if_neg h]
  rw [hcomp]

lemma viewEndpoint_noncoach (db : DB) (user : User) (cid : Nat) (content : ContentLink)
    (hg : getContent db cid = some content) (hnc : user.isCoach = false) :
    viewEndpoint db user cid
      = (200, updateWatchStatus (incrementViews db cid) user.id cid true) := by
  unfold viewEndpoint
  rw [hg]
  dsimp only
  rw [if_neg (by simp [hnc])]

lemma updateWatchStatus_any_key (db : DB) (u c : Nat) (w : Bool) :
    (updateWatchStatus db u c w).watchStatus.any (wsKey u c) = true := by
  unfold updateWatchStatus
  by_cases h : db.watchStatus.any (wsKey u c) = true
  · rw [if_pos h]
    dsimp only
    obtain ⟨x, hx, hpx⟩ := List.any_eq_true.mp h
    apply List.any_eq_true.mpr
    refine ⟨(if wsKey u c x then { x with watched := w } else x), List.mem_map_of_mem _ hx, ?_⟩
    rw [wsKey_updateFun]
    exact hpx
  · rw [if_neg h]
    dsimp only
    apply List.any_eq_true.mpr
    exact ⟨_, List.mem_append_right _ (List.mem_singleton_self _), by simp [wsKey]⟩

lemma updateWatchStatus_noop (db : DB) (u c : Nat) (w : Bool)
    (hany : db.watchStatus.any (wsKey u c) = true)
    (hall : ∀ r ∈ db.watchStatus, wsKey u c r → r.watched = w) :
    updateWatchStatus db u c w = db := by
  unfold updateWatchStatus
  rw [if_pos hany]
  have hmap : db.watchStatus.map (fun r => if wsKey u c r then { r with watched := w } else r)
      = db.watchStatus := by
    conv_rhs => rw [← List.map_id db.watchStatus]
    apply List.map_congr_left
    intro a ha
    by_cases hk : wsKey u c a = true
    · rw [if_pos hk]
      exact ws_set_watched_self a (hall a ha hk)
    · rw [if_neg hk]
      rfl
  rw [hmap]

/-- C4: the analytics unique-viewer count equals the number of distinct users
with a watched = true row for the content, and a second view by the same user
(via the view endpoint) leaves it unchanged — it is unaffected by repeated
views. -/
theorem uniqueViewers_distinct_users (db : DB) (user : User) (cid c : Nat) :
    uniqueViewers db c = specUniqueViewers db c ∧
    uniqueViewers (viewEndpoint (viewEndpoint db user cid).2 user cid).2 c
      = uniqueViewers (viewEndpoint db user cid).2 c := by
  constructor
  · unfold uniqueViewers specUniqueViewers
    rw [List.card_toFinset]
  · cases hg : getContent db cid with
    | none =>
      have h1 : viewEndpoint db user cid = (404, db) := by
        unfold viewEndpoint
        rw [hg]
      have h2 : (viewEndpoint db user cid).2 = db := by rw [h1]
      rw [h2, h2]
    | some content =>
      by_cases hco : user.isCoach = true
      · have h1 : viewEndpoint db user cid = (200, db) := by
          unfold viewEndpoint
          rw [hg]
          dsimp only
          rw [if_pos hco]
        have h2 : (viewEndpoint db user cid).2 = db := by rw [h1]
        rw [h2, h2]
      · have hnc : user.isCoach = false := by
          cases hu : user.isCoach
          · rfl
          · exact absurd hu hco
        have h2 : (viewEndpoint db user cid).2
            = updateWatchStatus (incrementViews db cid) user.id cid true := by
          rw [viewEndpoint_noncoach db user cid content hg hnc]
        set db1 := updateWatchStatus (incrementViews db cid) user.id cid true with hdb1
        rw [h2]
        have hg1 : getContent db1 cid
            = some (if content.id == cid then { content with views := content.views + 1 }
                    else content) := by
          have e1 : getContent db1 cid = getContent (incrementViews db cid) cid := by
            rw [hdb1]
            exact getContent_congr _ _ (updateWatchStatus_contentLinks _ _ _ _) cid
          rw [e1, getContent_incrementViews, hg]
          rfl
        have h4 : (viewEndpoint db1 user cid).2
            = updateWatchStatus (incrementViews db1 cid) user.id cid true := by
          rw [viewEndpoint_noncoach db1 user cid _ hg1 hnc]
        rw [h4]
        have hnoop : updateWatchStatus (incrementViews db1 cid) user.id cid true
            = incrementViews db1 cid := by
          apply updateWatchStatus_noop
          · show db1.watchStatus.any (wsKey user.id cid) = true
            rw [hdb1]
            exact updateWatchStatus_any_key _ _ _ _
          · show ∀ r ∈ db1.watchStatus, wsKey user.id cid r → r.watched = true
            rw [hdb1]
            exact updateWatchStatus_watched _ _ _ _
        rw [hnoop]
        exact uniqueViewers_congr _ _ rfl c

/-! ### C5: the views counter -/

/-- One mutating operation of the storage layer or of a state-changing
route, with its arguments. -/
inductive Op where
  | opCreateContent (url title category platform description : String)
      (thumbnailUrl : Option String) (coachId : Nat)
  | opDeleteContent (id : Nat)
  | opCreateComment (content : String) (userId contentId createdAt : Nat)
  | opUpdateWatchStatus (userId contentId : Nat) (w : Bool)
  | opIncrementViews (contentId : Nat)
  | opLikeComment (userId commentId : Nat)
  | opUnlikeComment (userId commentId : Nat)
  | opView (user : User) (contentId : Nat)
  | opLikeEndpoint (user : User) (commentId : Nat)
  | opUnlikeEndpoint (user : User) (commentId : Nat)
  | opDeleteEndpoint (user : User) (contentId : Nat)
  | opWatchPost (user : User) (contentId : Nat) (w : Bool)

/-- The successor state of one operation. -/
def applyOp (db : DB) : Op → DB
  | Op.opCreateContent url title category platform description thumb coachId =>
      createContent db url title category platform description thumb coachId
  | Op.opDeleteContent id => deleteContent db id
  | Op.opCreateComment content userId contentId createdAt =>
      createComment db content userId contentId createdAt
  | Op.opUpdateWatchStatus u c w => updateWatchStatus db u c w
  | Op.opIncrementViews c => incrementViews db c
  | Op.opLikeComment u c => likeComment db u c
  | Op.opUnlikeComment u c => unlikeComment db u c
  | Op.opView user c => (viewEndpoint db user c).2
  | Op.opLikeEndpoint user c => (likeEndpoint db user c).2
  | Op.opUnlikeEndpoint user c => (unlikeEndpoint db user c).2
  | Op.opDeleteEndpoint user c => (deleteContentEndpoint db user c).2
  | Op.opWatchPost user c w => (watchPostEndpoint db user c w).2

/-- The views column of the content row with the given id, when present. -/
def viewsOf (db : DB) (id : Nat) : Option Nat :=
  (getContent db id).map (fun c => c.views)

lemma viewsOf_congr (db db' : DB) (h : db'.contentLinks = db.contentLinks) (id : Nat) :
    viewsOf db' id = viewsOf db id := by
  unfold viewsOf
  rw [getContent_congr db db' h]

lemma mono_of_links_eq (db db' : DB) (id v : Nat) (h : db'.contentLinks = db.contentLinks)
    (hv : viewsOf db id = some v) : ∀ v', viewsOf db' id = some v' → v ≤ v' := by
  intro v' hv'
  rw [viewsOf_congr db db' h, hv] at hv'
  injection hv' with h'
  omega

lemma likeComment_contentLinks (db : DB) (u c : Nat) :
    (likeComment db u c).contentLinks = db.contentLinks := by
  unfold likeComment
  by_cases h : db.commentLikes.any (clKey u c) = true
  · rw [if_pos h]
  · rw [if_neg h]

lemma likeEndpoint_contentLinks (db : DB) (user : User) (c : Nat) :
    (likeEndpoint db user c).2.contentLinks = db.contentLinks := by
  unfold likeEndpoint
  cases hg : getCommentById db c with
  | none => rfl
  | some cmt =>
    dsimp only
    by_cases h : (cmt.userId == user.id) = true
    · rw [if_pos h]
    · rw [if_neg h]
      exact likeComment_contentLinks db user.id c

lemma viewsOf_incrementViews (db : DB) (cid id : Nat) :
    viewsOf (incrementViews db cid) id
      = (viewsOf db id).map (fun v => if id == cid then v + 1 else v) := by
  unfold viewsOf
  rw [getContent_incrementViews]
  cases hg : getContent db id with
  | none => rfl
  | some r =>
    have hid : r.id = id := by
      have hp := List.find?_some hg
      simpa using hp
    simp only [Option.map_some']
    congr 1
    rw [← hid]
    by_cases hc : (r.id == cid) = true
    · rw [if_pos hc, if_pos hc]
    · rw [if_neg hc, if_neg hc]

lemma viewsOf_deleteContent (db : DB) (did id v : Nat) (hv : viewsOf db id = some v) :
    ∀ v', viewsOf (deleteContent db did) id = some v' → v ≤ v' := by
  intro v' hv'
  unfold viewsOf getContent deleteContent at hv'
  dsimp only at hv'
  rw [List.find?_filter] at hv'
  by_cases h : id = did
  · subst h
    have hnone : db.contentLinks.find? (fun a => !(a.id == id) ∧ a.id == id) = none := by
      rw [List.find?_eq_none]
      intro a _
      simp
    rw [hnone] at hv'
    cases hv'
  · have hsame : db.contentLinks.find? (fun a => !(a.id == did) ∧ a.id == id)
        = db.contentLinks.find? (fun a => a.id == id) := by
      have hfe : (fun a : ContentLink => (!(a.id == did) ∧ a.id == id : Bool))
          = fun a : ContentLink => a.id == id := by
        funext a
        by_cases ha : (a.id == id) = true
        · have hane : (a.id == did) = false := by
            have : a.id = id := by simpa using ha
            simp [this, h]
          simp [ha, hane]
        · simp [ha]
      rw [hfe]
    rw [hsame] at hv'
    unfold viewsOf getContent at hv
    rw [hv] at hv'
    injection hv' with h'
    omega

lemma viewsOf_createContent (db : DB) (id v : Nat)
    (url title category platform description : String) (thumb : Option String) (coachId : Nat)
    (hv : viewsOf db id = some v) :
    viewsOf (createContent db url title category platform description thumb coachId) id
      = some v := by
  unfold viewsOf getContent at hv
  unfold viewsOf getContent createContent
  dsimp only
  obtain ⟨r, hr, hrv⟩ := Option.map_eq_some'.mp hv
  rw [List.find?_append, hr]
  simp [hrv]

/-- C5: the views counter is monotone under every operation; the view
endpoint adds exactly 1 for a non-coach user and leaves the whole store
unchanged for a coach. -/
theorem views_counter_props (db : DB) (op : Op) (user : User) (id v : Nat)
    (hv : viewsOf db id = some v) :
    (∀ v', viewsOf (applyOp db op) id = some v' → v ≤ v') ∧
    (user.isCoach = false → viewsOf (applyOp db (Op.opView user id)) id = some (v + 1)) ∧
    (user.isCoach = true → applyOp db (Op.opView user id) = db) := by
  have hviewNC : ∀ (u : User) (cid : Nat), u.isCoach = false →
      ∀ v', viewsOf ((viewEndpoint db u cid).2) id = some v' → v ≤ v' := by
    intro u cid hnc v' hv'
    cases hg : getContent db cid with
    | none =>
      have h1 : (viewEndpoint db u cid).2 = db := by
        unfold viewEndpoint
        rw [hg]
      rw [h1, hv] at hv'
      injection hv' with h'
      omega
    | some content =>
      have h1 : (viewEndpoint db u cid).2
          = updateWatchStatus (incrementViews db cid) u.id cid true := by
        rw [viewEndpoint_noncoach db u cid content hg hnc]
      rw [h1] at hv'
      rw [viewsOf_congr _ _ (updateWatchStatus_contentLinks _ _ _ _) id,
        viewsOf_incrementViews, hv] at hv'
      by_cases hc : (id == cid) = true
      · simp only [Option.map_some', if_pos hc] at hv'
        injection hv' with h'
        omega
      · simp only [Option.map_some', if_neg hc] at hv'
        injection hv' with h'
        omega
  have hviewC : ∀ (u : User) (cid : Nat), u.isCoach = true →
      (viewEndpoint db u cid).2 = db := by
    intro u cid hco
    unfold viewEndpoint
    cases hg : getContent db cid with
    | none => rfl
    | some content =>
      dsimp only
      rw [if_pos hco]
  refine ⟨?_, ?_, ?_⟩
  · cases op with
    | opCreateContent url title category platform description thumb coachId =>
      intro v' hv'
      have hv2 : viewsOf (createContent db url title category platform description thumb coachId)
          id = some v' := hv'
      rw [viewsOf_createContent db id v url title category platform description thumb coachId hv]
        at hv2
      injection hv2 with h'
      omega
    | opDeleteContent did => exact viewsOf_deleteContent db did id v hv
    | opCreateComment content userId contentId createdAt =>
      exact mono_of_links_eq db _ id v rfl hv
    | opUpdateWatchStatus u c w =>
      exact mono_of_links_eq db _ id v (updateWatchStatus_contentLinks db u c w) hv
    | opIncrementViews c =>
      intro v' hv'
      have hv2 : viewsOf (incrementViews db c) id = some v' := hv'
      rw [viewsOf_incrementViews, hv] at hv2
      by_cases hc : (id == c) = true
      · simp only [Option.map_some', if_pos hc] at hv2
        injection hv2 with h'
        omega
      · simp only [Option.map_some', if_neg hc] at hv2
        injection hv2 with h'
        omega
    | opLikeComment u c =>
      exact mono_of_links_eq db _ id v (likeComment_contentLinks db u c) hv
    | opUnlikeComment u c => exact mono_of_links_eq db _ id v rfl hv
    | opView u c =>
      by_cases hco : u.isCoach = true
      · intro v' hv'
        have h1 : applyOp db (Op.opView u c) = db := hviewC u c hco
        rw [h1, hv] at hv'
        injection hv' with h'
        omega
      · have hnc : u.isCoach = false := by
          cases hu : u.isCoach
          · rfl
          · exact absurd hu hco
        exact hviewNC u c hnc
    | opLikeEndpoint u c =>
      exact mono_of_links_eq db _ id v (likeEndpoint_contentLinks db u c) hv
    | opUnlikeEndpoint u c => exact mono_of_links_eq db _ id v rfl hv
    | opDeleteEndpoint u c =>
      intro v' hv'
      have hv2 : viewsOf (deleteContentEndpoint db u c).2 id = some v' := hv'
      unfold deleteContentEndpoint at hv2
      by_cases hcoach : (!u.isCoach) = true
      · rw [if_pos hcoach] at hv2
        dsimp only at hv2
        rw [hv] at hv2
        injection hv2 with h'
        omega
      · rw [if_neg hcoach] at hv2
        cases hg : getContent db c with
        | none =>
          rw [hg] at hv2
          dsimp only at hv2
          rw [hv] at hv2
          injection hv2 with h'
          omega
        | some content =>
          rw [hg] at hv2
          dsimp only at hv2
          by_cases hown : (!(content.coachId == u.id)) = true
          · rw [if_pos hown] at hv2
            dsimp only at hv2
            rw [hv] at hv2
            injection hv2 with h'
            omega
          · rw [if_neg hown] at hv2
            dsimp only at hv2
            exact viewsOf_deleteContent db c id v hv v' hv2
    | opWatchPost u c w =>
      exact mono_of_links_eq db _ id v (updateWatchStatus_contentLinks db u.id c w) hv
  · intro hnc
    cases hg : getContent db id with
    | none =>
      unfold viewsOf getContent at hv
      unfold getContent at hg
      rw [hg] at hv
      cases hv
    | some content =>
      have hcv : content.views = v := by
        unfold viewsOf at hv
        rw [hg] at hv
        simpa using hv
      have h1 : applyOp db (Op.opView user id)
          = updateWatchStatus (incrementViews db id) user.id id true := by
        show (viewEndpoint db user id).2 = _
        rw [viewEndpoint_noncoach db user id content hg hnc]
      rw [h1, viewsOf_congr _ _ (updateWatchStatus_contentLinks _ _ _ _) id,
        viewsOf_incrementViews, hv]
      simp [hcv]
  · intro hco
    exact hviewC user id hco

/-- Store with one content row owned by coach 1 with 2 views, used as a
concrete witness input. -/
def oneContentDB : DB :=
  { users := [], contentLinks :=
      [{ id := 3, url := "u", title := "t", category := "k", coachId := 1,
         platform := "YouTube", thumbnailUrl := none, description := "d", views := 2 }],
    comments := [], watchStatus := [], commentLikes := [], nextId := 4 }

/-- Witness for C5: a non-coach view bumps content 3 from 2 to 3 views and a
coach view leaves the store unchanged. -/
theorem views_counter_props_witness :
    viewsOf (applyOp oneContentDB
        (Op.opView { id := 9, username := "p", password := "q", isCoach := false } 3)) 3
      = some 3 ∧
    applyOp oneContentDB
        (Op.opView { id := 1, username := "c", password := "q", isCoach := true } 3)
      = oneContentDB :=
  ⟨(views_counter_props oneContentDB
      (Op.opView { id := 9, username := "p", password := "q", isCoach := false } 3)
      { id := 9, username := "p", password := "q", isCoach := false } 3 2 (by decide)).2.1 rfl,
   (views_counter_props oneContentDB
      (Op.opView { id := 1, username := "c", password := "q", isCoach := true } 3)
      { id := 1, username := "c", password := "q", isCoach := true } 3 2 (by decide)).2.2 rfl⟩

/-! ### C7: like counts and hasLiked -/

lemma commentRows_likeCount (db : DB) (cid : Nat) :
    ∀ v ∈ commentRows db cid, v.likeCount = likeCountOf db v.id := by
  intro v hv
  unfold commentRows at hv
  obtain ⟨c, hc, hm⟩ := List.mem_filterMap.mp hv
  obtain ⟨u, hu, hmk⟩ := Option.map_eq_some'.mp hm
  subst hmk
  rfl

lemma hasUserLiked_iff (db : DB) (u c : Nat) :
    hasUserLikedComment db u c = true ↔
      ∃ l ∈ db.commentLikes, l.userId = u ∧ l.commentId = c := by
  unfold hasUserLikedComment
  rw [List.any_eq_true]
  constructor
  · rintro ⟨l, hl, hk⟩
    refine ⟨l, hl, ?_⟩
    simpa [clKey] using hk
  · rintro ⟨l, hl, h1, h2⟩
    exact ⟨l, hl, by simp [clKey, h1, h2]⟩

/-- C7: every listed comment's likeCount equals the number of CommentLike
rows for it; hasLiked holds for exactly the users with a like row; and in
the end-to-end scenario V likes U's comment C: likeCount becomes 1,
hasLiked(V) is true, hasLiked(U) is false, and after V unlikes it is 0. -/
theorem likeCount_reflects_rows (db : DB) (cid : Nat) (uU uV : User) (C : Comment)
    (hC : getCommentById db cid = some C) (hUC : C.userId = uU.id)
    (hneq : uV.id ≠ uU.id) (h0 : likeCountOf db cid = 0) :
    (∀ sb : SortOrder, ∀ cid' : Nat, ∀ v ∈ getCommentsByContent db cid' sb,
        v.likeCount = likeCountOf db v.id) ∧
    (∀ u c : Nat, hasUserLikedComment db u c = true ↔
        ∃ l ∈ db.commentLikes, l.userId = u ∧ l.commentId = c) ∧
    (likeEndpoint db uV cid).1 = 200 ∧
    likeCountOf (likeEndpoint db uV cid).2 cid = 1 ∧
    hasUserLikedComment (likeEndpoint db uV cid).2 uV.id cid = true ∧
    hasUserLikedComment (likeEndpoint db uV cid).2 uU.id cid = false ∧
    likeCountOf (unlikeEndpoint (likeEndpoint db uV cid).2 uV cid).2 cid = 0 := by
  have h0' : db.commentLikes.countP (fun l => l.commentId == cid) = 0 := h0
  have hbeq : ¬((C.userId == uV.id) = true) := by
    simp only [beq_iff_eq, hUC]
    exact fun h => hneq h.symm
  have h1 : likeEndpoint db uV cid = (200, likeComment db uV.id cid) := by
    unfold likeEndpoint
    rw [hC]
    dsimp only
    rw [if_neg hbeq]
  have hnolike : db.commentLikes.any (clKey uV.id cid) = false := by
    apply List.any_eq_false.mpr
    intro l hl
    have hnc := List.countP_eq_zero.mp h0' l hl
    simp only [clKey, Bool.and_eq_true, beq_iff_eq, not_and]
    intro _
    simpa using hnc
  have h2 : likeComment db uV.id cid
      = { db with
          commentLikes := db.commentLikes ++
            [{ id := db.nextId, userId := uV.id, commentId := cid, createdAt := 0 }],
          nextId := db.nextId + 1 } := by
    unfold likeComment
    rw [if_neg (by simp [hnolike])]
  have h12 : (likeEndpoint db uV cid).2
      = { db with
          commentLikes := db.commentLikes ++
            [{ id := db.nextId, userId := uV.id, commentId := cid, createdAt := 0 }],
          nextId := db.nextId + 1 } := by
    rw [h1]
    exact h2
  refine ⟨?_, hasUserLiked_iff db, by rw [h1], ?_, ?_, ?_, ?_⟩
  · intro sb cid' v hv
    have hvr : v ∈ commentRows db cid' := by
      cases sb with
      | newest =>
        unfold getCommentsByContent at hv
        exact (List.mem_insertionSort _).mp hv
      | oldest =>
        unfold getCommentsByContent at hv
        exact (List.mem_insertionSort _).mp hv
      | likes =>
        unfold getCommentsByContent at hv
        exact (List.mem_insertionSort _).mp hv
    exact commentRows_likeCount db cid' v hvr
  · rw [h12]
    unfold likeCountOf
    dsimp only
    rw [List.countP_append, h0']
    simp
  · rw [h12]
    unfold hasUserLikedComment
    dsimp only
    apply List.any_eq_true.mpr
    exact ⟨_, List.mem_append_right _ (List.mem_singleton_self _), by simp [clKey]⟩
  · rw [h12]
    unfold hasUserLikedComment
    dsimp only
    apply List.any_eq_false.mpr
    intro l hl
    rcases List.mem_append.mp hl with hmem | hmem
    · have hnc := List.countP_eq_zero.mp h0' l hmem
      simp only [clKey, Bool.and_eq_true, beq_iff_eq, not_and]
      intro _
      simpa using hnc
    · rw [List.mem_singleton] at hmem
      subst hmem
      simp only [clKey, Bool.and_eq_true, beq_iff_eq, not_and]
      intro hvid
      exact absurd hvid hneq
  · rw [h12]
    unfold unlikeEndpoint unlikeComment likeCountOf
    dsimp only
    rw [List.countP_eq_zero]
    intro a ha
    have hmf := List.mem_filter.mp ha
    rcases List.mem_append.mp hmf.1 with hmem | hmem
    · exact List.countP_eq_zero.mp h0' a hmem
    · rw [List.mem_singleton] at hmem
      subst hmem
      have hcontra := hmf.2
      simp [clKey] at hcontra

/-- Store with users 1 (author) and 2, and user 1's comment 7 on content 5
with no likes, used as a concrete witness input. -/
def twoUsersDB : DB :=
  { users := [{ id := 1, username := "u1", password := "p", isCoach := false },
              { id := 2, username := "u2", password := "p", isCoach := false }],
    contentLinks := [],
    comments := [{ id := 7, content := "nice", userId := 1, contentId := 5, createdAt := 0 }],
    watchStatus := [], commentLikes := [], nextId := 8 }

/-- Witness for C7: user 2 likes user 1's comment 7; the count becomes 1,
hasLiked is true for 2 and false for 1, and unliking brings it back to 0. -/
theorem likeCount_reflects_rows_witness :
    likeCountOf (likeEndpoint twoUsersDB
        { id := 2, username := "u2", password := "p", isCoach := false } 7).2 7 = 1 ∧
    hasUserLikedComment (likeEndpoint twoUsersDB
        { id := 2, username := "u2", password := "p", isCoach := false } 7).2 2 7 = true ∧
    hasUserLikedComment (likeEndpoint twoUsersDB
        { id := 2, username := "u2", password := "p", isCoach := false } 7).2 1 7 = false ∧
    likeCountOf (unlikeEndpoint (likeEndpoint twoUsersDB
        { id := 2, username := "u2", password := "p", isCoach := false } 7).2
        { id := 2, username := "u2", password := "p", isCoach := false } 7).2 7 = 0 := by
  have hmain := likeCount_reflects_rows twoUsersDB 7
    { id := 1, username := "u1", password := "p", isCoach := false }
    { id := 2, username := "u2", password := "p", isCoach := false }
    { id := 7, content := "nice", userId := 1, contentId := 5, createdAt := 0 }
    (by decide) rfl (by decide) (by decide)
  exact ⟨hmain.2.2.2.1, hmain.2.2.2.2.1, hmain.2.2.2.2.2.1, hmain.2.2.2.2.2.2⟩

end CoachPlatform
